import Mathlib

/-!
# Verification of the chat widget in `static/chat.js`

A shallow embedding of the browser chat widget: the markdown-lite
formatter `formatMessage`, the conversation-state machine around
`sendMessage` (history, transcript, loading placeholder, the single
fetch request and its success / failure continuations), and the
visibility / maximize toggle handlers.

JavaScript strings are modelled as Lean `String` (lists of Unicode
scalar values); the JavaScript regular-expression replacements of
`formatMessage` are modelled as left-to-right scanners with the exact
match semantics of the patterns used in the source
(`/\*\*(.*?)\*\*/g`, `/\*(.*?)\*/g`, a backtick-delimited inline-code
pattern, `/\n\s*-\s/g`, `/\n/g`).  JSON values are modelled by the
inductive `JsVal`, with `undef` for the JavaScript `undefined` that
property access on a field-less object yields.
-/

namespace ChatWidget

/-- The JavaScript `\s` character class (also the set trimmed by
`String.prototype.trim`): tab, line feed, vertical tab, form feed,
carriage return, space, NBSP, BOM, and the Unicode space separators
and line separators. -/
def isWsChar (c : Char) : Bool :=
  c = ' ' || c = '\t' || c = '\n' || c.toNat = 0x0b || c.toNat = 0x0c || c = '\r' ||
  c.toNat = 0xa0 || c.toNat = 0x1680 ||
  (0x2000 ≤ c.toNat && c.toNat ≤ 0x200a) ||
  c.toNat = 0x2028 || c.toNat = 0x2029 || c.toNat = 0x202f || c.toNat = 0x205f ||
  c.toNat = 0x3000 || c.toNat = 0xfeff

/-- Line terminators, the characters the JavaScript `.` (dot) does not
match: LF, CR, LINE SEPARATOR, PARAGRAPH SEPARATOR. -/
def isLineTerm (c : Char) : Bool :=
  c = '\n' || c = '\r' || c.toNat = 0x2028 || c.toNat = 0x2029

/-- `String.prototype.trim`: drop `\s`-class characters from both ends. -/
def trimJS (s : String) : String :=
  ⟨((s.data.dropWhile isWsChar).reverse.dropWhile isWsChar).reverse⟩

/-- The backtick character. -/
def btChar : Char := Char.ofNat 96

/-!
## The markdown-lite formatter (`formatMessage`, chat.js lines 144-153)

Each `.replace(pattern, repl)` with a global flag scans the subject
left to right; at each position it tries the pattern, on success emits
the replacement and resumes after the match, on failure emits one
character and moves on.  The scanners below implement exactly that.
Where a match can jump forward by a variable amount the recursion uses
a fuel argument (initialised to the subject's length, which always
suffices because every step consumes at least one character).
-/

/-- Lazy search for the closing `**` of `/\*\*(.*?)\*\*/`: returns the
(dot-only, hence line-terminator-free) captured text and the remainder
after the closing delimiter. -/
def findClose2 : List Char → Option (List Char × List Char)
  | '*' :: '*' :: r => some ([], r)
  | c :: r => if isLineTerm c then none
              else (findClose2 r).map (fun p => (c :: p.1, p.2))
  | [] => none

/-- Try `/\*\*(.*?)\*\*/` at the head of the input. -/
def tryBold : List Char → Option (List Char × List Char)
  | '*' :: '*' :: r => findClose2 r
  | _ => none

/-- Lazy search for the closing `*` of `/\*(.*?)\*/`. -/
def findClose1 : List Char → Option (List Char × List Char)
  | '*' :: r => some ([], r)
  | c :: r => if isLineTerm c then none
              else (findClose1 r).map (fun p => (c :: p.1, p.2))
  | [] => none

/-- Try `/\*(.*?)\*/` at the head of the input. -/
def tryItalic : List Char → Option (List Char × List Char)
  | '*' :: r => findClose1 r
  | _ => none

/-- Try the inline-code pattern (backtick, one or more non-backtick
characters, backtick) at the head of the input. -/
def tryCode (s : List Char) : Option (List Char × List Char) :=
  match s with
  | c :: r =>
    if c = btChar then
      let mid := r.takeWhile (fun x => x != btChar)
      if mid.isEmpty then none
      else
        match r.dropWhile (fun x => x != btChar) with
        | c2 :: r2 => if c2 = btChar then some (mid, r2) else none
        | [] => none
    else none
  | [] => none

/-- Try the tail of `/\n\s*-\s/` (everything after the leading `\n`):
a maximal whitespace run, a hyphen, then one whitespace character.
Returns the remainder after the match. -/
def tryBullet (r : List Char) : Option (List Char) :=
  match r.dropWhile isWsChar with
  | c1 :: c :: r2 => if c1 = '-' ∧ isWsChar c = true then some r2 else none
  | _ => none

/-- Global-replace scanner for `/\*\*(.*?)\*\*/g` with replacement
`<strong>$1</strong>`. -/
def boldScanF : Nat → List Char → List Char
  | 0, s => s
  | _ + 1, [] => []
  | f + 1, c :: r =>
    match tryBold (c :: r) with
    | some (mid, rest) =>
        "<strong>".data ++ mid ++ "</strong>".data ++ boldScanF f rest
    | none => c :: boldScanF f r

/-- Global-replace scanner for `/\*(.*?)\*/g` with replacement
`<em>$1</em>`. -/
def italicScanF : Nat → List Char → List Char
  | 0, s => s
  | _ + 1, [] => []
  | f + 1, c :: r =>
    match tryItalic (c :: r) with
    | some (mid, rest) => "<em>".data ++ mid ++ "</em>".data ++ italicScanF f rest
    | none => c :: italicScanF f r

/-- Global-replace scanner for the inline-code pattern with replacement
`<code>$1</code>`. -/
def codeScanF : Nat → List Char → List Char
  | 0, s => s
  | _ + 1, [] => []
  | f + 1, c :: r =>
    match tryCode (c :: r) with
    | some (mid, rest) => "<code>".data ++ mid ++ "</code>".data ++ codeScanF f rest
    | none => c :: codeScanF f r

/-- The literal replacement text of the bullet rule in the source:
`<br>` followed by the marker characters U+00E2 U+20AC U+00A2 (the
source file stores the UTF-8 bytes of U+2022 BULLET re-encoded through
a second UTF-8 decode, so these three scalars are what the file
contains) and a space. -/
def bulletRepl : String := "<br>â€¢ "

/-- Global-replace scanner for `/\n\s*-\s/g` with replacement
`bulletRepl`. -/
def bulletScanF : Nat → List Char → List Char
  | 0, s => s
  | _ + 1, [] => []
  | f + 1, c :: r =>
    if c = '\n' then
      match tryBullet r with
      | some rest => bulletRepl.data ++ bulletScanF f rest
      | none => c :: bulletScanF f r
    else c :: bulletScanF f r

/-- Global-replace scanner for `/\n/g` with replacement `<br>`. -/
def nlScan : List Char → List Char
  | [] => []
  | '\n' :: r => "<br>".data ++ nlScan r
  | c :: r => c :: nlScan r

/-- `bulletScanF` with enough fuel. -/
def bulletScan (s : List Char) : List Char := bulletScanF s.length s

def replaceBold (s : String) : String := ⟨boldScanF s.data.length s.data⟩

def replaceItalic (s : String) : String := ⟨italicScanF s.data.length s.data⟩

def replaceCode (s : String) : String := ⟨codeScanF s.data.length s.data⟩

def replaceBullets (s : String) : String := ⟨bulletScan s.data⟩

def replaceNewlines (s : String) : String := ⟨nlScan s.data⟩

/-- `formatMessage` (chat.js 144-153): the five `.replace` passes in
source order — bold, italic, inline code, bullet, newline. -/
def formatMessage (text : String) : String :=
  replaceNewlines (replaceBullets (replaceCode (replaceItalic (replaceBold text))))

/-!
## JSON values and the conversation data model
-/

/-- JavaScript values as far as the widget observes them: the JSON
value lattice plus `undef` for `undefined` (the result of reading a
missing property). -/
inductive JsVal where
  | undefined : JsVal
  | null : JsVal
  | bool (b : Bool) : JsVal
  | num (n : Int) : JsVal
  | str (s : String) : JsVal
  | arr (xs : List JsVal) : JsVal
  | obj (fields : List (String × JsVal)) : JsVal
  deriving Repr

/-- One conversation turn, `{ role, parts }` (chat.js 65, 87).  The
source only ever stores strings in `parts` except on the malformed-
response path, where `data.response` is `undefined`; `parts` therefore
holds `JsVal`s. -/
structure Turn where
  role : String
  parts : List JsVal
  deriving Repr

/-- A transcript (chat-messages container) entry: a rendered message
div (`addMessage`, chat.js 100-117) or a loading-indicator div with an
id (`addLoading`, chat.js 119-133). -/
inductive Entry where
  | msg (text : String) (sender : String) (isHtml : Bool) : Entry
  | loading (id : String) : Entry
  deriving Repr

/-- The widget's mutable state: `chatHistory`, the children of the
chat-messages container, and the text in the input field. -/
structure WState where
  history : List Turn
  transcript : List Entry
  inputValue : String
  deriving Repr

/-- The one outbound HTTP request `sendMessage` issues
(chat.js 71-80). -/
structure Request where
  path : String
  method : String
  contentType : String
  body : JsVal
  deriving Repr

/-- `JSON.stringify` of an array element: `undefined` serializes as
`null` inside arrays; every proper JSON value serializes as itself. -/
def partJson : JsVal → JsVal
  | .undefined => .null
  | v => v

/-- Serialization of one turn inside the request body. -/
def turnJson (t : Turn) : JsVal :=
  .obj [("role", .str t.role), ("parts", .arr (t.parts.map partJson))]

/-- Serialization of `chatHistory` inside the request body. -/
def historyJson (h : List Turn) : JsVal :=
  .arr (h.map turnJson)

/-- The id `addLoading` derives from the clock:
`'loading-' + Date.now()` (chat.js 120). -/
def loadingIdOf (now : Nat) : String :=
  "loading-" ++ toString now

/-- `addMessage(text, sender, isHtml)` as a state transformer: append
one message entry (scrolling is presentational and not part of the
state). -/
def addMessageS (s : WState) (text sender : String) (isHtml : Bool) : WState :=
  { s with transcript := s.transcript ++ [.msg text sender isHtml] }

/-- `document.getElementById(id).remove()` on the transcript: delete
the first entry carrying `id`, a no-op when none does
(`removeLoading`, chat.js 135-138). -/
def removeById : List Entry → String → List Entry
  | [], _ => []
  | .msg t sndr ih :: r, id => .msg t sndr ih :: removeById r id
  | .loading i :: r, id => if i = id then r else .loading i :: removeById r id

/-- Does the transcript hold a loading entry with this id? -/
def hasId : List Entry → String → Bool
  | [], _ => false
  | .msg _ _ _ :: r, id => hasId r id
  | .loading i :: r, id => i == id || hasId r id

/-- `sendMessage` up to the suspension point of the fetch
(chat.js 56-80): trim the input; if empty return unchanged with no
request; otherwise render the user message, clear the input, push the
user turn, add the loading placeholder, and issue the POST whose body
serializes the history that already includes the new user turn. -/
def sendMessage (s : WState) (now : Nat) : WState × Option Request :=
  let message := trimJS s.inputValue
  if message = "" then (s, none)
  else
    let s1 := addMessageS s message "user" false
    let s2 := { s1 with inputValue := "" }
    let s3 := { s2 with history := s2.history ++ [(⟨"user", [JsVal.str message]⟩ : Turn)] }
    let s4 := { s3 with transcript := s3.transcript ++ [.loading (loadingIdOf now)] }
    (s4, some { path := "/chat", method := "POST",
                contentType := "application/json",
                body := .obj [("message", .str message),
                              ("history", historyJson s3.history)] })

/-- `data.response` in JavaScript: property access on `null` or
`undefined` throws a TypeError (`none`); on an object it yields the
field's value or `undefined`; on any other value it yields
`undefined`. -/
def jsGetResponse : JsVal → Option JsVal
  | .undefined => none
  | .null => none
  | .obj fields =>
      some (match fields.lookup "response" with
            | some v => v
            | none => .undefined)
  | _ => some .undefined

/-- The fixed apology text (chat.js 95). -/
def apology : String := "Sorry, something went wrong. Please try again."

/-- The outcome of `fetch('/chat', ...)` followed by
`response.json()`: transport error, body that is not valid JSON
(either way the promise chain rejects), or a parsed JSON value. -/
inductive FetchOutcome where
  | netError : FetchOutcome
  | badJson : FetchOutcome
  | json (v : JsVal) : FetchOutcome

/-- The `.catch` handler (chat.js 93-97): remove the loading entry,
render the apology as escaped text, log the error.  The returned flag
records the `console.error` call. -/
def catchPath (s : WState) (lid : String) : WState × Bool :=
  (addMessageS { s with transcript := removeById s.transcript lid }
    apology "bot" false, true)

/-- The `.then(data => ...)` callback (chat.js 82-92).  `Except`
tracks an exception escaping the callback: reading `.response` off
`null` throws after the loading entry is removed; `formatMessage`
throws (`.replace` is not a function / not readable) after the model
turn is pushed whenever `responseText` is not a string.  The carried
state is the state at the point the exception escapes. -/
def thenCallback (s : WState) (lid : String) (v : JsVal) : Except WState WState :=
  let s1 := { s with transcript := removeById s.transcript lid }
  match jsGetResponse v with
  | none => .error s1
  | some responseText =>
    let s2 := { s1 with history := s1.history ++ [(⟨"model", [responseText]⟩ : Turn)] }
    match responseText with
    | .str t => .ok (addMessageS s2 (formatMessage t) "bot" true)
    | _ => .error s2

/-- The whole continuation of the fetch: the `.then` chain with its
`.catch` (chat.js 81-97).  A rejection from the transport or the JSON
parse, or an exception thrown inside the `.then` callback, lands in
the catch handler.  The `Bool` is true when `console.error` ran. -/
def handleResponse (s : WState) (lid : String) (o : FetchOutcome) : WState × Bool :=
  match o with
  | .netError => catchPath s lid
  | .badJson => catchPath s lid
  | .json v =>
    match thenCallback s lid v with
    | .ok s2 => (s2, false)
    | .error s2 => catchPath s2 lid

/-!
## Visibility and maximize controls (chat.js 22-46)
-/

/-- The UI flags the toggle handlers touch: whether the window carries
`d-none` (hidden), whether it carries `maximized`, and whether the
maximize button's icon is `bi-arrows-fullscreen` (as opposed to
`bi-fullscreen-exit`). -/
structure UIState where
  hidden : Bool
  maximized : Bool
  iconFullscreen : Bool
  deriving Repr

/-- The chat-bubble click handler (chat.js 23-29):
`classList.toggle('d-none')`; focusing and scrolling touch no modelled
state. -/
def bubbleClick (u : UIState) : UIState :=
  { u with hidden := !u.hidden }

/-- The close-button handler (chat.js 31-33):
`classList.add('d-none')`. -/
def closeClick (u : UIState) : UIState :=
  { u with hidden := true }

/-- The maximize-button handler (chat.js 36-46): toggle `maximized`,
then set the icon from the new value. -/
def maxClick (u : UIState) : UIState :=
  let m := !u.maximized
  { u with maximized := m, iconFullscreen := !m }

/-!
## Helper lemmas
-/

theorem hasId_append (xs ys : List Entry) (id : String) :
    hasId (xs ++ ys) id = (hasId xs id || hasId ys id) := by
  induction xs with
  | nil => simp [hasId]
  | cons e r ih =>
    cases e with
    | msg t sndr b => simpa [hasId] using ih
    | loading i => simp [hasId, ih, Bool.or_assoc]

theorem removeById_append (xs ys : List Entry) (id : String)
    (h : hasId xs id = false) :
    removeById (xs ++ ys) id = xs ++ removeById ys id := by
  induction xs with
  | nil => simp
  | cons e r ih =>
    cases e with
    | msg t sndr b =>
      simp only [hasId] at h
      simp [removeById, ih h]
    | loading i =>
      simp only [hasId, Bool.or_eq_false_iff, beq_eq_false_iff_ne] at h
      simp [removeById, h.1, ih h.2]

theorem dropWhile_eq_of_all (p : Char → Bool) (w : List Char) (x : Char)
    (t : List Char) (hw : w.all p = true) (hx : p x = false) :
    (w ++ x :: t).dropWhile p = x :: t := by
  induction w with
  | nil => simp [List.dropWhile_cons, hx]
  | cons y w ih =>
    simp only [List.all_cons, Bool.and_eq_true] at hw
    simp [List.dropWhile_cons, hw.1, ih hw.2]

theorem tryBullet_ws (w : List Char) (c : Char) (d : List Char)
    (hw : w.all isWsChar = true) (hc : isWsChar c = true) :
    tryBullet (w ++ '-' :: c :: d) = some d := by
  unfold tryBullet
  rw [dropWhile_eq_of_all _ _ _ _ hw (by decide)]
  simp [hc]

theorem length_dropWhile_le_self (p : Char → Bool) (l : List Char) :
    (l.dropWhile p).length ≤ l.length := by
  induction l with
  | nil => simp
  | cons a l ih =>
    by_cases h : p a
    · simp only [List.dropWhile_cons, if_pos h, List.length_cons]
      omega
    · simp [List.dropWhile_cons, h]

theorem tryBullet_length (r r2 : List Char) (h : tryBullet r = some r2) :
    r2.length + 2 ≤ r.length := by
  unfold tryBullet at h
  have hlen := length_dropWhile_le_self isWsChar r
  cases hd : r.dropWhile isWsChar with
  | nil => rw [hd] at h; simp at h
  | cons c1 t =>
    cases t with
    | nil => rw [hd] at h; simp at h
    | cons c2 t2 =>
      rw [hd] at h hlen
      have h2 : (if c1 = '-' ∧ isWsChar c2 = true then some t2 else none)
          = some r2 := h
      by_cases hcase : c1 = '-' ∧ isWsChar c2 = true
      · rw [if_pos hcase] at h2
        obtain rfl : t2 = r2 := by simpa using h2
        simp only [List.length_cons] at hlen
        omega
      · rw [if_neg hcase] at h2
        simp at h2

theorem bulletScanF_congr (f1 : Nat) : ∀ (f2 : Nat) (s : List Char),
    s.length ≤ f1 → s.length ≤ f2 → bulletScanF f1 s = bulletScanF f2 s := by
  induction f1 with
  | zero =>
    intro f2 s h1 _
    obtain rfl : s = [] := by
      cases s with
      | nil => rfl
      | cons c r => simp at h1
    cases f2 <;> rfl
  | succ f ih =>
    intro f2 s h1 h2
    cases s with
    | nil => cases f2 <;> rfl
    | cons c r =>
      cases f2 with
      | zero => simp at h2
      | succ g =>
        simp only [List.length_cons, Nat.add_le_add_iff_right] at h1 h2
        by_cases hc : c = '\n'
        · simp only [bulletScanF, if_pos hc]
          cases hb : tryBullet r with
          | none =>
            show c :: bulletScanF f r = c :: bulletScanF g r
            rw [ih g r h1 h2]
          | some rest =>
            have hr := tryBullet_length r rest hb
            show bulletRepl.data ++ bulletScanF f rest
              = bulletRepl.data ++ bulletScanF g rest
            rw [ih g rest (by omega) (by omega)]
        · simp only [bulletScanF, if_neg hc]
          rw [ih g r h1 h2]

theorem bulletScan_cons_of_ne (c : Char) (s : List Char) (hc : ¬ c = '\n') :
    bulletScan (c :: s) = c :: bulletScan s := by
  unfold bulletScan
  simp only [List.length_cons, bulletScanF, if_neg hc]

theorem bulletScan_cons_match (w : List Char) (c : Char) (d : List Char)
    (hw : w.all isWsChar = true) (hc : isWsChar c = true) :
    bulletScan ('\n' :: (w ++ '-' :: c :: d)) = bulletRepl.data ++ bulletScan d := by
  unfold bulletScan
  simp only [List.length_cons, bulletScanF]
  rw [if_true, tryBullet_ws w c d hw hc]
  show bulletRepl.data ++ bulletScanF (w ++ '-' :: c :: d).length d
    = bulletRepl.data ++ bulletScanF d.length d
  congr 1
  apply bulletScanF_congr
  · simp only [List.length_append, List.length_cons]
    omega
  · exact le_rfl

/-- The post-send state, explicitly: user entry rendered, input
cleared, user turn pushed, loading entry appended. -/
theorem sendMessage_state (s : WState) (now : Nat)
    (h : trimJS s.inputValue ≠ "") :
    (sendMessage s now).1
      = { s with
          history := s.history ++ [⟨"user", [JsVal.str (trimJS s.inputValue)]⟩],
          transcript := s.transcript
            ++ [.msg (trimJS s.inputValue) "user" false,
                .loading (loadingIdOf now)],
          inputValue := "" } := by
  simp [sendMessage, h, addMessageS]

/-- The response continuation on a body whose `response` field is the
string `t`: loading entry removed, model turn pushed, formatted text
rendered as trusted HTML, no error logged. -/
theorem handleSuccess (s1 : WState) (lid : String) (v : JsVal) (t : String)
    (hresp : jsGetResponse v = some (JsVal.str t)) :
    handleResponse s1 lid (.json v)
      = ({ s1 with
           history := s1.history ++ [⟨"model", [JsVal.str t]⟩],
           transcript := removeById s1.transcript lid
             ++ [.msg (formatMessage t) "bot" true] }, false) := by
  simp [handleResponse, thenCallback, hresp, addMessageS]

/-- The response continuation on a transport error or a JSON parse
error: loading entry removed, apology rendered as escaped text,
history untouched, error logged. -/
theorem handleFailure (s1 : WState) (lid : String) (o : FetchOutcome)
    (ho : o = .netError ∨ o = .badJson) :
    handleResponse s1 lid o
      = ({ s1 with
           transcript := removeById s1.transcript lid
             ++ [.msg apology "bot" false] }, true) := by
  rcases ho with rfl | rfl <;> simp [handleResponse, catchPath, addMessageS]

theorem getLast_snoc {α : Type} (l : List α) (a : α) :
    (l ++ [a]).getLast? = some a := by
  rw [List.getLast?_append_cons]
  rfl

/-!
## The claims
-/

/-- Claim C1: for every input whose trimmed text is non-empty,
`sendMessage` appends exactly one `{ role: "user", parts: [trimmed] }`
turn to the history before the request is issued, and performs exactly
one POST to `/chat` with `Content-Type: application/json` and body
`{ message, history }` whose serialized history includes the
just-appended user turn (as its last element). -/
theorem claim_C1_send_appends_then_posts (s : WState) (now : Nat)
    (h : trimJS s.inputValue ≠ "") :
    ((sendMessage s now).1.history
      = s.history ++ [⟨"user", [JsVal.str (trimJS s.inputValue)]⟩])
    ∧ ((sendMessage s now).2
      = some ⟨"/chat", "POST", "application/json",
          .obj [("message", .str (trimJS s.inputValue)),
                ("history", historyJson
                  (s.history ++ [⟨"user", [JsVal.str (trimJS s.inputValue)]⟩]))]⟩)
    ∧ (historyJson (s.history ++ [⟨"user", [JsVal.str (trimJS s.inputValue)]⟩])
      = .arr (s.history.map turnJson
          ++ [turnJson ⟨"user", [JsVal.str (trimJS s.inputValue)]⟩])) := by
  refine ⟨?_, ?_, ?_⟩ <;> simp [sendMessage, h, addMessageS, historyJson]

theorem claim_C1_witness :
    trimJS "hi" ≠ ""
    ∧ (sendMessage ⟨[], [], "hi"⟩ 0).1.history = [⟨"user", [JsVal.str "hi"]⟩] :=
  ⟨by decide, (claim_C1_send_appends_then_posts ⟨[], [], "hi"⟩ 0 (by decide)).1⟩

/-- Claim C5: for every input whose trimmed text is empty,
`sendMessage` is a no-op: state (history, transcript, input field)
unchanged and no network request. -/
theorem claim_C5_empty_input_noop (s : WState) (now : Nat)
    (h : trimJS s.inputValue = "") :
    sendMessage s now = (s, none) := by
  simp [sendMessage, h]

theorem claim_C5_witness :
    trimJS "   " = ""
    ∧ sendMessage ⟨[], [], "   "⟩ 5 = (⟨[], [], "   "⟩, none) :=
  ⟨by decide, claim_C5_empty_input_noop ⟨[], [], "   "⟩ 5 (by decide)⟩

/-- Claim C6: formatting `"**a** *b* `c`\n- d"` yields "a"
in strong markup, "b" in emphasis markup, "c" in inline-code markup,
then a line break and the bullet marker (`bulletRepl`, the code's
literal replacement) before "d". -/
theorem claim_C6_format_roundtrip :
    formatMessage "**a** *b* `c`\n- d"
      = "<strong>a</strong> <em>b</em> <code>c</code>" ++ bulletRepl ++ "d" := by
  decide

/-- Claim C8: the open-toggle is an involution on the widget state,
the maximize-toggle applied twice restores both the layout flag and
the icon glyph (given the icon/layout invariant that holds from
initialization on), and close is idempotent. -/
theorem claim_C8_toggle_algebra (u : UIState) :
    (bubbleClick (bubbleClick u) = u)
    ∧ (u.iconFullscreen = !u.maximized → maxClick (maxClick u) = u)
    ∧ (closeClick (closeClick u) = closeClick u) := by
  refine ⟨?_, ?_, ?_⟩
  · cases u
    simp [bubbleClick]
  · intro h
    cases u
    simp_all [maxClick]
  · cases u
    simp [closeClick]

theorem claim_C8_witness :
    ((⟨true, false, true⟩ : UIState).iconFullscreen
        = !(⟨true, false, true⟩ : UIState).maximized)
    ∧ maxClick (maxClick ⟨true, false, true⟩) = (⟨true, false, true⟩ : UIState)
    ∧ bubbleClick (bubbleClick ⟨true, false, true⟩) = (⟨true, false, true⟩ : UIState) :=
  ⟨rfl, (claim_C8_toggle_algebra ⟨true, false, true⟩).2.1 rfl,
   (claim_C8_toggle_algebra ⟨true, false, true⟩).1⟩

/-- Claim C10: both operations that touch the history only append:
the new history is the old one followed by zero or more turns, each
appended turn has role "user" or "model", and each appended turn's
`parts` holds exactly one element. -/
theorem claim_C10_history_append_only (s : WState) (now : Nat) (lid : String)
    (o : FetchOutcome) :
    (∃ extra, (sendMessage s now).1.history = s.history ++ extra
      ∧ ∀ t ∈ extra, (t.role = "user" ∨ t.role = "model") ∧ t.parts.length = 1)
    ∧ (∃ extra, (handleResponse s lid o).1.history = s.history ++ extra
      ∧ ∀ t ∈ extra, (t.role = "user" ∨ t.role = "model") ∧ t.parts.length = 1) := by
  constructor
  · by_cases h : trimJS s.inputValue = ""
    · exact ⟨[], by simp [sendMessage, h], by simp⟩
    · refine ⟨[⟨"user", [JsVal.str (trimJS s.inputValue)]⟩], ?_, ?_⟩
      · simp [sendMessage, h, addMessageS]
      · intro t ht
        simp only [List.mem_singleton] at ht
        subst ht
        exact ⟨Or.inl rfl, rfl⟩
  · cases o with
    | netError => exact ⟨[], by simp [handleResponse, catchPath, addMessageS], by simp⟩
    | badJson => exact ⟨[], by simp [handleResponse, catchPath, addMessageS], by simp⟩
    | json v =>
      cases hv : jsGetResponse v with
      | none =>
        refine ⟨[], ?_, by simp⟩
        simp [handleResponse, thenCallback, hv, catchPath, addMessageS]
      | some rt =>
        refine ⟨[⟨"model", [rt]⟩], ?_, ?_⟩
        · cases rt <;>
            simp [handleResponse, thenCallback, hv, catchPath, addMessageS]
        · intro t ht
          simp only [List.mem_singleton] at ht
          subst ht
          exact ⟨Or.inr rfl, rfl⟩

/-- Claim C2: when the response body parses as JSON with a string
field `response`, exactly one `{ role: "model", parts: [response] }`
turn is appended, the loading placeholder created for the call is
absent afterward, and the formatted response is rendered as a bot
entry with `isHtml = true` (and no error is logged). -/
theorem claim_C2_success_exchange (s : WState) (now : Nat) (v : JsVal)
    (t : String)
    (hne : trimJS s.inputValue ≠ "")
    (hfresh : hasId s.transcript (loadingIdOf now) = false)
    (hresp : jsGetResponse v = some (JsVal.str t)) :
    ((handleResponse (sendMessage s now).1 (loadingIdOf now) (.json v)).1.history
      = (sendMessage s now).1.history ++ [⟨"model", [JsVal.str t]⟩])
    ∧ (hasId (handleResponse (sendMessage s now).1 (loadingIdOf now)
        (.json v)).1.transcript (loadingIdOf now) = false)
    ∧ ((handleResponse (sendMessage s now).1 (loadingIdOf now)
        (.json v)).1.transcript.getLast?
      = some (.msg (formatMessage t) "bot" true))
    ∧ ((handleResponse (sendMessage s now).1 (loadingIdOf now) (.json v)).2
      = false) := by
  rw [sendMessage_state s now hne, handleSuccess _ _ _ _ hresp]
  have hrem : removeById
      (s.transcript ++ [.msg (trimJS s.inputValue) "user" false,
        .loading (loadingIdOf now)]) (loadingIdOf now)
      = s.transcript ++ [.msg (trimJS s.inputValue) "user" false] := by
    rw [removeById_append _ _ _ hfresh]
    simp [removeById]
  refine ⟨rfl, ?_, ?_, rfl⟩
  · simp only [hrem, List.append_assoc, hasId_append, hfresh, hasId,
      Bool.false_or, Bool.or_false]
  · simp only [hrem, getLast_snoc]

theorem claim_C2_witness :
    trimJS "hi" ≠ ""
    ∧ hasId [] (loadingIdOf 0) = false
    ∧ jsGetResponse (.obj [("response", .str "ok")]) = some (JsVal.str "ok")
    ∧ ((handleResponse (sendMessage ⟨[], [], "hi"⟩ 0).1 (loadingIdOf 0)
        (.json (.obj [("response", .str "ok")]))).2 = false) :=
  ⟨by decide, rfl, rfl,
   (claim_C2_success_exchange ⟨[], [], "hi"⟩ 0 (.obj [("response", .str "ok")])
     "ok" (by decide) rfl rfl).2.2.2⟩

/-- Claim C3: on a network transport error or a response-body parse
error, the loading placeholder is removed, the fixed apology string is
rendered as escaped plain text (`isHtml = false`), no turn is appended
to the history for the failed attempt, and the error is logged. -/
theorem claim_C3_failure_exchange (s : WState) (now : Nat) (o : FetchOutcome)
    (hne : trimJS s.inputValue ≠ "")
    (hfresh : hasId s.transcript (loadingIdOf now) = false)
    (ho : o = .netError ∨ o = .badJson) :
    ((handleResponse (sendMessage s now).1 (loadingIdOf now) o).1.history
      = (sendMessage s now).1.history)
    ∧ (hasId (handleResponse (sendMessage s now).1 (loadingIdOf now)
        o).1.transcript (loadingIdOf now) = false)
    ∧ ((handleResponse (sendMessage s now).1 (loadingIdOf now)
        o).1.transcript.getLast? = some (.msg apology "bot" false))
    ∧ ((handleResponse (sendMessage s now).1 (loadingIdOf now) o).2 = true) := by
  rw [sendMessage_state s now hne, handleFailure _ _ _ ho]
  have hrem : removeById
      (s.transcript ++ [.msg (trimJS s.inputValue) "user" false,
        .loading (loadingIdOf now)]) (loadingIdOf now)
      = s.transcript ++ [.msg (trimJS s.inputValue) "user" false] := by
    rw [removeById_append _ _ _ hfresh]
    simp [removeById]
  refine ⟨rfl, ?_, ?_, rfl⟩
  · simp only [hrem, List.append_assoc, hasId_append, hfresh, hasId,
      Bool.false_or, Bool.or_false]
  · simp only [hrem, getLast_snoc]

theorem claim_C3_witness :
    trimJS "hi" ≠ ""
    ∧ hasId [] (loadingIdOf 0) = false
    ∧ ((handleResponse (sendMessage ⟨[], [], "hi"⟩ 0).1 (loadingIdOf 0)
        .netError).1.transcript.getLast? = some (.msg apology "bot" false)) :=
  ⟨by decide, rfl,
   (claim_C3_failure_exchange ⟨[], [], "hi"⟩ 0 .netError (by decide) rfl
     (Or.inl rfl)).2.2.1⟩

/-- Claim C4 as stated is false: on the JSON-parseable response `{}`
(no `response` field) the failure path runs — the apology is rendered
and the error is logged — yet a model-side turn (with the undefined
part) has been appended after the user turn. -/
theorem claim_C4_counterexample :
    ((handleResponse (sendMessage ⟨[], [], "hi"⟩ 0).1 (loadingIdOf 0)
        (.json (.obj []))).1.history
      = [⟨"user", [JsVal.str "hi"]⟩, ⟨"model", [JsVal.undefined]⟩])
    ∧ ((handleResponse (sendMessage ⟨[], [], "hi"⟩ 0).1 (loadingIdOf 0)
        (.json (.obj []))).1.transcript.getLast?
      = some (.msg apology "bot" false))
    ∧ ((handleResponse (sendMessage ⟨[], [], "hi"⟩ 0).1 (loadingIdOf 0)
        (.json (.obj []))).2 = true) :=
  ⟨rfl, rfl, rfl⟩

/-- Claim C4, amended: a user turn is followed by no model turn when
the exchange fails with a transport error, a JSON parse error, or a
body on which reading `.response` throws (`null`); it is followed by
exactly one model turn `{ role: "model", parts: [responseText] }`
whenever `.response` yields a value — the string case being the
rendered success, while a non-string value still appends the turn and
then runs the failure path. -/
theorem claim_C4_amended_model_turns (s : WState) (lid : String) (v : JsVal) :
    ((handleResponse s lid .netError).1.history = s.history)
    ∧ ((handleResponse s lid .badJson).1.history = s.history)
    ∧ (jsGetResponse v = none →
        (handleResponse s lid (.json v)).1.history = s.history)
    ∧ (∀ rt, jsGetResponse v = some rt →
        (handleResponse s lid (.json v)).1.history
          = s.history ++ [⟨"model", [rt]⟩]) := by
  refine ⟨?_, ?_, ?_, ?_⟩
  · simp [handleResponse, catchPath, addMessageS]
  · simp [handleResponse, catchPath, addMessageS]
  · intro hv
    simp [handleResponse, thenCallback, hv, catchPath, addMessageS]
  · intro rt hv
    cases rt <;> simp [handleResponse, thenCallback, hv, catchPath, addMessageS]

theorem claim_C4_amended_witness :
    jsGetResponse (.obj []) = some JsVal.undefined
    ∧ ((handleResponse ⟨[], [], ""⟩ "x" (.json (.obj []))).1.history
        = [] ++ [⟨"model", [JsVal.undefined]⟩]) :=
  ⟨rfl, (claim_C4_amended_model_turns ⟨[], [], ""⟩ "x" (.obj [])).2.2.2
    JsVal.undefined rfl⟩

/-- Claim C7 as stated is false for the first line: on the input
`"- d"`, whose first (and only) line begins with a hyphen and a space,
the formatter leaves the text unchanged — the bullet pattern requires
a preceding newline. -/
theorem claim_C7_counterexample :
    formatMessage "- d" = "- d" ∧ formatMessage "- d" ≠ bulletRepl ++ "d" := by
  constructor
  · decide
  · decide

/-- Claim C7, amended: the bullet substitution fires at a newline
followed by optional whitespace, a hyphen and a whitespace character
— i.e. on every line after the first — replacing the whole matched
prefix with the line-break-plus-bullet marker; a first-line bullet
prefix (optional whitespace without newline, then hyphen) passes
through unchanged.  Concretely, `"x\n- y"` gains the marker and
`"- y"` does not. -/
theorem claim_C7_amended_bullet_lines (w a d : List Char) (c : Char)
    (hw : w.all isWsChar = true) (hc : isWsChar c = true)
    (ha : a.all isWsChar = true) (hnl : a.all (fun x => x != '\n') = true) :
    (bulletScan ('\n' :: (w ++ '-' :: c :: d)) = bulletRepl.data ++ bulletScan d)
    ∧ (bulletScan (a ++ '-' :: d) = a ++ '-' :: bulletScan d)
    ∧ formatMessage "x\n- y" = "x" ++ bulletRepl ++ "y"
    ∧ formatMessage "- y" = "- y" := by
  refine ⟨bulletScan_cons_match w c d hw hc, ?_, by decide, by decide⟩
  clear hw hc
  induction a with
  | nil => exact bulletScan_cons_of_ne '-' d (by decide)
  | cons x a ih =>
    simp only [List.all_cons, Bool.and_eq_true, bne_iff_ne] at ha hnl
    rw [List.cons_append, bulletScan_cons_of_ne x _ hnl.1, ih ha.2 hnl.2,
      List.cons_append]

theorem claim_C7_amended_witness :
    ([' '].all isWsChar = true)
    ∧ isWsChar ' ' = true
    ∧ (bulletScan ('\n' :: ([' '] ++ '-' :: ' ' :: ['y']))
        = bulletRepl.data ++ bulletScan ['y'])
    ∧ (bulletScan ([' '] ++ '-' :: ['y']) = [' '] ++ '-' :: bulletScan ['y']) :=
  ⟨by decide, by decide,
   (claim_C7_amended_bullet_lines [' '] [' '] ['y'] ' '
     (by decide) (by decide) (by decide) (by decide)).1,
   (claim_C7_amended_bullet_lines [' '] [' '] ['y'] ' '
     (by decide) (by decide) (by decide) (by decide)).2.1⟩

/-- Claim C9 as stated is false: on the JSON-parseable response `{}`
(no `response` field) nothing renders as the literal "undefined" (or
empty) — `formatMessage(undefined)` throws, the catch handler runs,
and the transcript ends with the apology entry. -/
theorem claim_C9_counterexample :
    ((handleResponse (sendMessage ⟨[], [], "hi"⟩ 0).1 (loadingIdOf 0)
        (.json (.obj []))).1.transcript
      = [.msg "hi" "user" false, .msg apology "bot" false])
    ∧ ((handleResponse (sendMessage ⟨[], [], "hi"⟩ 0).1 (loadingIdOf 0)
        (.json (.obj []))).2 = true) :=
  ⟨rfl, rfl⟩

/-- Claim C9, amended: when the body parses as JSON but `.response`
yields a non-string value (in particular `undefined` for a missing
field), a model turn holding that value is appended, and the widget
then renders the fixed apology as an escaped bot entry and logs the
error — it does not render the literal "undefined". -/
theorem claim_C9_amended_nonstring (s : WState) (lid : String) (v rt : JsVal)
    (hv : jsGetResponse v = some rt) (hns : ∀ u, rt ≠ JsVal.str u) :
    ((handleResponse s lid (.json v)).1.history
      = s.history ++ [⟨"model", [rt]⟩])
    ∧ ((handleResponse s lid (.json v)).1.transcript.getLast?
      = some (.msg apology "bot" false))
    ∧ ((handleResponse s lid (.json v)).2 = true) := by
  cases rt
  case str u => exact absurd rfl (hns u)
  all_goals
    refine ⟨?_, ?_, ?_⟩ <;>
      simp [handleResponse, thenCallback, hv, catchPath, addMessageS,
        getLast_snoc]

theorem claim_C9_amended_witness :
    jsGetResponse (.obj [("data", .num 3)]) = some JsVal.undefined
    ∧ ((handleResponse ⟨[], [], ""⟩ "y"
        (.json (.obj [("data", .num 3)]))).1.transcript.getLast?
      = some (.msg apology "bot" false)) :=
  ⟨rfl, (claim_C9_amended_nonstring ⟨[], [], ""⟩ "y" (.obj [("data", .num 3)])
    JsVal.undefined rfl (fun _ h => JsVal.noConfusion h)).2.1⟩

end ChatWidget
